import Mathlib

/-!
Verification development for the `adviser` caching HTTP gateway.

The program is a Go service with three near-duplicate variants; the full
variant (cache + deadline race) is embedded here.  Its per-request flow:

  handlerFunc:  ctx := WithTimeout(reqTimeout * time.Millisecond);
                cache pull (pullAndResponse); on miss, `go handler(...)`
                racing a `done` channel against `ctx.Done()`; on the
                deadline branch it writes status 504 and the fixed error
                body.
  handler:      fetch (request) -> transform -> cache push -> write body,
                signalling `done` (non-blocking) on return.
  request:      GET target+url under ctx; non-200 status and JSON decode
                errors are reported as errors.

Machine integers (`time.Duration` is an int64 of nanoseconds) are modelled
as `Int` with explicit wrap at 2^64; JSON values are a concrete inductive;
the response writer is a log of write events; the concurrency of the
race is modelled by explicit scheduling parameters in a `Scenario`.
-/

namespace Adviser

/-- JSON values.  Numbers are modelled by their integer value (no claim
depends on non-integral numerals). -/
inductive Json where
  | null : Json
  | bool (b : Bool) : Json
  | num (n : Int) : Json
  | str (s : String) : Json
  | arr (elems : List Json) : Json
  | obj (fields : List (String × Json)) : Json
deriving Repr

/-- `inputItem`: the upstream record.  Fields declared `interface{}` in the
source ("unknown type") are kept as raw `Json`; `Type` is rendered `typ`
(Lean keyword). -/
structure InputItem where
  indexStrings : List String
  countryCode : String
  stateCode : Json
  cases : List (String × String)
  coordinates : List (String × Int)
  countryCases : Json
  code : String
  name : String
  weight : Int
  typ : String
  countryName : String
  mainAirportName : Json
deriving Repr

/-- `outputItem`: `{slug, subtitle, title}`. -/
structure OutputItem where
  slug : String
  subtitle : String
  title : String
deriving Repr, DecidableEq

/-- The transform loop of `handler`: `output[k] = {Slug: input[k].Code,
Subtitle: input[k].CountryName, Title: input[k].Name}` over `make(outputResp,
len(input))`. -/
def transform (input : List InputItem) : List OutputItem :=
  input.map fun it => { slug := it.code, subtitle := it.countryName, title := it.name }

/-- Zero-valued `inputItem` (what Go's decoder starts from: nil slices and
maps, empty strings, zero weight, nil interfaces). -/
def zeroInputItem : InputItem :=
  { indexStrings := [], countryCode := "", stateCode := Json.null, cases := [],
    coordinates := [], countryCases := Json.null, code := "", name := "",
    weight := 0, typ := "", countryName := "", mainAirportName := Json.null }

/-- Decode a JSON value into a freshly zeroed Go `string` (a slice or map
element): strings decode, `null` has no effect and leaves the zero value,
anything else is a type error. -/
def asString : Json → Except Unit String
  | Json.str s => Except.ok s
  | Json.null => Except.ok ""
  | _ => Except.error ()

/-- Decode into a freshly zeroed Go number (a map element). -/
def asInt : Json → Except Unit Int
  | Json.num n => Except.ok n
  | Json.null => Except.ok 0
  | _ => Except.error ()

/-- Decode into a `[]string` field. -/
def asStringList : Json → Except Unit (List String)
  | Json.arr l => l.mapM asString
  | Json.null => Except.ok []
  | _ => Except.error ()

/-- Decode into a `map[string]string` field. -/
def asStringMap : Json → Except Unit (List (String × String))
  | Json.obj fs => fs.mapM fun p => (asString p.2).map fun s => (p.1, s)
  | Json.null => Except.ok []
  | _ => Except.error ()

/-- Decode into a `map[string]float64` field (numerals kept as `Int`). -/
def asNumMap : Json → Except Unit (List (String × Int))
  | Json.obj fs => fs.mapM fun p => (asInt p.2).map fun n => (p.1, n)
  | Json.null => Except.ok []
  | _ => Except.error ()

/-- The JSON tags declared on `inputItem`. -/
def knownKeys : List String :=
  ["index_strings", "country_code", "state_code", "cases", "coordinates",
   "country_cases", "code", "name", "weight", "type", "country_name",
   "main_airport_name"]

/-- `encoding/json`'s name folding on one character: ASCII letters fold
case-insensitively, and the only non-ASCII code points whose simple case
fold reaches an ASCII letter — U+017F (long s) and U+212A (Kelvin sign) —
fold to `s` and `k`. -/
def foldChar (c : Char) : Char :=
  if 65 ≤ c.toNat ∧ c.toNat ≤ 90 then Char.ofNat (c.toNat + 32)
  else if c.toNat = 383 then 's'
  else if c.toNat = 8490 then 'k'
  else c

/-- An object key folded for field matching.  The declared tags are all
lowercase ASCII and pairwise distinct after folding, so `json.Unmarshal`'s
rule — prefer an exact match but also accept a case-insensitive (folded)
match — amounts to: key `k` hits the field with tag `t` iff
`foldName k = t`. -/
def foldName (s : String) : String := String.mk (s.data.map foldChar)

/-- One object key/value pair applied to the partially decoded `inputItem`,
as `json.Unmarshal` does: the folded key is matched against the tags; an
unmatched key is ignored; a JSON `null` sets slice, map and `interface{}`
fields to nil (their zero here) and has no effect on string and number
fields; a matched value of the wrong shape is an `UnmarshalTypeError`. -/
def setField (it : InputItem) (k : String) (v : Json) : Except Unit InputItem :=
  let f := foldName k
  if f = "index_strings" then (asStringList v).map fun x => { it with indexStrings := x }
  else if f = "country_code" then
    match v with
    | Json.null => Except.ok it
    | Json.str x => Except.ok { it with countryCode := x }
    | _ => Except.error ()
  else if f = "state_code" then Except.ok { it with stateCode := v }
  else if f = "cases" then (asStringMap v).map fun x => { it with cases := x }
  else if f = "coordinates" then (asNumMap v).map fun x => { it with coordinates := x }
  else if f = "country_cases" then Except.ok { it with countryCases := v }
  else if f = "code" then
    match v with
    | Json.null => Except.ok it
    | Json.str x => Except.ok { it with code := x }
    | _ => Except.error ()
  else if f = "name" then
    match v with
    | Json.null => Except.ok it
    | Json.str x => Except.ok { it with name := x }
    | _ => Except.error ()
  else if f = "weight" then
    match v with
    | Json.null => Except.ok it
    | Json.num n => Except.ok { it with weight := n }
    | _ => Except.error ()
  else if f = "type" then
    match v with
    | Json.null => Except.ok it
    | Json.str x => Except.ok { it with typ := x }
    | _ => Except.error ()
  else if f = "country_name" then
    match v with
    | Json.null => Except.ok it
    | Json.str x => Except.ok { it with countryName := x }
    | _ => Except.error ()
  else if f = "main_airport_name" then Except.ok { it with mainAirportName := v }
  else Except.ok it

/-- `json.Unmarshal` into one `inputItem`: the object's keys are processed
in order against the zero-valued struct (later duplicates overwrite), each
matched by `setField`'s folded comparison. -/
def decodeInputItem (fs : List (String × Json)) : Except Unit InputItem :=
  fs.foldlM (fun it p => setField it p.1 p.2) zeroInputItem

/-- One element of the `[]*inputItem` slice.  A JSON `null` element leaves a
nil pointer in Go; no claim exercises that path, so it is modelled as the
zero item. -/
def decodeInputElem : Json → Except Unit InputItem
  | Json.obj fs => decodeInputItem fs
  | Json.null => Except.ok zeroInputItem
  | _ => Except.error ()

/-- `json.Unmarshal` of the whole body into `inputResp` (`[]*inputItem`). -/
def decodeInputResp : Json → Except Unit (List InputItem)
  | Json.arr l => l.mapM decodeInputElem
  | Json.null => Except.ok []
  | _ => Except.error ()

/-- One hex digit. -/
def hexDigit (n : Nat) : Char :=
  if n < 10 then Char.ofNat (48 + n) else Char.ofNat (87 + n)

/-- `encoding/json` string escaping: quote, backslash, the HTML-escaped
characters, and control characters. -/
def escapeChar (c : Char) : String :=
  if c = '"' then "\\\""
  else if c = '\\' then "\\\\"
  else if c = '<' then "\\u003c"
  else if c = '>' then "\\u003e"
  else if c = '&' then "\\u0026"
  else if c = '\n' then "\\n"
  else if c = '\r' then "\\r"
  else if c = '\t' then "\\t"
  else if c.toNat < 32 then
    String.mk ['\\', 'u', '0', '0', hexDigit (c.toNat / 16), hexDigit (c.toNat % 16)]
  else String.singleton c

/-- A JSON string literal. -/
def jsonString (s : String) : String :=
  "\"" ++ String.join (s.toList.map escapeChar) ++ "\""

/-- `json.Marshal` of one `outputItem` (fields in declaration order). -/
def marshalOutputItem (o : OutputItem) : String :=
  "\x7b\"slug\":" ++ jsonString o.slug ++ ",\"subtitle\":" ++ jsonString o.subtitle
    ++ ",\"title\":" ++ jsonString o.title ++ "\x7d"

/-- `json.Marshal` of an `outputResp` slice. -/
def marshalOutputResp (l : List OutputItem) : String :=
  "[" ++ String.intercalate "," (l.map marshalOutputItem) ++ "]"

/-- `internalErr`, the fixed error body. -/
def internalErr : String := "\x7b\"error\": \"internal error\"\x7d"

/-! ### The LRU cache (`github.com/hashicorp/golang-lru`)

The cache stores `interface{}` values under string keys; eviction is
least-recently-used, both `Get` and `Add` refreshing recency.  Entries are
kept most-recent-first. -/

/-- A cached value: the program only ever stores `outputResp`, but the store
itself is untyped (`pullAndResponse` type-asserts on read). -/
inductive CacheValue where
  | output (items : List OutputItem) : CacheValue
  | other (tag : String) : CacheValue
deriving Repr, DecidableEq

/-- The LRU cache: capacity plus entries, most recently used first. -/
structure LRUCache where
  size : Nat
  entries : List (String × CacheValue)
deriving Repr, DecidableEq

/-- Drop every binding of a key. -/
def removeKey (k : String) : List (String × CacheValue) → List (String × CacheValue)
  | [] => []
  | e :: es => if e.1 = k then removeKey k es else e :: removeKey k es

/-- First binding of a key. -/
def lookupKey (k : String) : List (String × CacheValue) → Option CacheValue
  | [] => none
  | e :: es => if e.1 = k then some e.2 else lookupKey k es

/-- `Cache.Get`: on a hit the entry moves to the front. -/
def lruGet (c : LRUCache) (k : String) : Option CacheValue × LRUCache :=
  match lookupKey k c.entries with
  | none => (none, c)
  | some v => (some v, { size := c.size, entries := (k, v) :: removeKey k c.entries })

/-- `Cache.Add`: insert or overwrite at the front, evicting the oldest
entries beyond capacity. -/
def lruAdd (c : LRUCache) (k : String) (v : CacheValue) : LRUCache :=
  { size := c.size, entries := ((k, v) :: removeKey k c.entries).take c.size }

/-! ### Configuration and `time.Duration` arithmetic

`time.Duration` is an `int64` counting nanoseconds; conversions and
multiplications wrap at 64 bits. -/

/-- Wrap an integer into the `int64` range. -/
def wrap64 (n : Int) : Int := (n + 2 ^ 63) % 2 ^ 64 - 2 ^ 63

/-- `time.Duration` multiplication (`int64` overflow wraps). -/
def durMul (a b : Int) : Int := wrap64 (a * b)

/-- `time.Millisecond` in nanoseconds. -/
def millisecond : Int := 1000000

/-- The application configuration (`RequestTimeout` is a `uint64` of
milliseconds per its declaration). -/
structure Config where
  Addr : String
  CacheSize : Nat
  LogLevel : String
  RequestTimeout : Nat
  TargetAddr : String
deriving Repr

/-- `newConfig`, the defaults. -/
def newConfig : Config :=
  { Addr := ":80", CacheSize := 1000, LogLevel := "info",
    RequestTimeout := 3000, TargetAddr := "https://places.aviasales.ru" }

/-- `s.reqTimeout` as set by `newServer`:
`time.Duration(cfg.RequestTimeout) * time.Millisecond`. -/
def reqTimeout (cfg : Config) : Int :=
  durMul (wrap64 (Int.ofNat cfg.RequestTimeout)) millisecond

/-- The context deadline computed in `handlerFunc`:
`time.Duration(s.reqTimeout) * time.Millisecond` — `s.reqTimeout` is already
a duration of `RequestTimeout` milliseconds, so this multiplies by
`time.Millisecond` a second time. -/
def ctxTimeout (cfg : Config) : Int := durMul (reqTimeout cfg) millisecond

/-! ### The per-request orchestration

`handlerFunc` pulls from the cache; on a miss it runs `go s.handler(ctx,...)`
and selects between `ctx.Done()` (writing 504 and the error body) and the
`done` channel (written to non-blockingly by `handler`'s deferred send).
`handler` fetches under the same `ctx`, so when the deadline elapses the
in-flight `client.Do` aborts with a context error.

A `Scenario` fixes the environment and the scheduler choices one request can
observe: when the upstream reply would arrive, what it is, which branch the
`select` takes when completion and deadline become ready together, and the
interleaving of the worker's writes with the timeout writes when both paths
write. -/

/-- What the upstream service would do for this request. -/
inductive UpstreamReply where
  | transportErr : UpstreamReply
  | reply (status : Nat) (body : Json) : UpstreamReply
deriving Repr

/-- Environment and scheduling of one request. -/
structure Scenario where
  upstreamDelay : Int
  upstreamReply : UpstreamReply
  timerFirst : Bool
  goroutineWritesFirst : Bool
deriving Repr

/-- One call on the `http.ResponseWriter`. -/
inductive WriteEvent where
  | header (status : Nat) : WriteEvent
  | body (bytes : String) : WriteEvent
deriving Repr, DecidableEq

/-- The status the client sees: Go commits the first `WriteHeader`, and a
`Write` with no prior header implies 200. -/
def responseStatus : List WriteEvent → Nat
  | [] => 200
  | WriteEvent.header s :: _ => s
  | WriteEvent.body _ :: _ => 200

/-- `s.request` under a context whose deadline is `deadline` ns away: if the
upstream reply would arrive at or after the deadline, `client.Do` aborts
with a context error; otherwise a transport failure or a non-200 status is
an error, and a 200 body goes through `json.Unmarshal`. -/
def requestResult (deadline : Int) (s : Scenario) : Except Unit (List InputItem) :=
  if deadline ≤ s.upstreamDelay then Except.error ()
  else
    match s.upstreamReply with
    | UpstreamReply.transportErr => Except.error ()
    | UpstreamReply.reply status body =>
        if status = 200 then decodeInputResp body else Except.error ()

/-- `s.handler`, the fetch goroutine: on a fetch error it writes
`internalErr`; on success it transforms, pushes to the cache and writes the
marshalled result.  Returns its writes and the value it pushes (if any);
the deferred non-blocking `done` send needs no further modelling because it
never blocks and carries no data. -/
def handler (deadline : Int) (s : Scenario) :
    List WriteEvent × Option (List OutputItem) :=
  match requestResult deadline s with
  | Except.error _ => ([WriteEvent.body internalErr], none)
  | Except.ok input =>
      let output := transform input
      ([WriteEvent.body (marshalOutputResp output)], some output)

/-- `s.pullAndResponse`: cache `Get`, type-assert to `outputResp`, and on
success marshal and write the cached value.  Returns whether it responded,
its writes, and the cache (whose recency the `Get` may have refreshed). -/
def pullAndResponse (c : LRUCache) (key : String) :
    Bool × List WriteEvent × LRUCache :=
  match lruGet c key with
  | (none, c2) => (false, [], c2)
  | (some v, c2) =>
      match v with
      | CacheValue.output data =>
          (true, [WriteEvent.body (marshalOutputResp data)], c2)
      | CacheValue.other _ => (false, [], c2)

/-- The result of one request: everything written on the connection, the
cache afterwards, and how many fetch goroutines were launched. -/
structure ReqResult where
  writes : List WriteEvent
  cache : LRUCache
  fetchCalls : Nat
deriving Repr, DecidableEq

/-- `s.handlerFunc`: cache pull, then the race.  The fetch completes at
`min upstreamDelay deadline` (it is cancelled at the deadline), so the
`done` branch wins outright when the reply arrives strictly before the
deadline and ties are broken by the scheduler (`timerFirst`).  When the
timer branch wins, `handlerFunc` writes status 504 and `internalErr` while
the abandoned goroutine still performs its own writes on the same
connection, in a scheduler-chosen order. -/
def handlerFunc (cfg : Config) (c : LRUCache) (s : Scenario) (url : String) :
    ReqResult :=
  let deadline := ctxTimeout cfg
  let pulled := pullAndResponse c url
  if pulled.1 then
    { writes := pulled.2.1, cache := pulled.2.2, fetchCalls := 0 }
  else
    let h := handler deadline s
    let tws : List WriteEvent := [WriteEvent.header 504, WriteEvent.body internalErr]
    let ws :=
      if deadline ≤ s.upstreamDelay ∧ s.timerFirst = true then
        (if s.goroutineWritesFirst then h.1 ++ tws else tws ++ h.1)
      else h.1
    let c3 :=
      match h.2 with
      | some v => lruAdd pulled.2.2 url (CacheValue.output v)
      | none => pulled.2.2
    { writes := ws, cache := c3, fetchCalls := 1 }

/-- A sequence of requests against one server: fold `handlerFunc` over the
cache. -/
def execTrace (cfg : Config) (c : LRUCache) : List (Scenario × String) → LRUCache
  | [] => c
  | t :: ts => execTrace cfg (handlerFunc cfg c t.1 t.2).cache ts

/-! ### Concrete inputs used by the theorems -/

/-- A fresh cache of the default capacity (`lru.New(cfg.CacheSize)`). -/
def emptyCache : LRUCache := { size := 1000, entries := [] }

/-- A small upstream body: one place record. -/
def sampleBody : Json :=
  Json.arr [Json.obj [("code", Json.str "MOW"), ("name", Json.str "Moscow"),
    ("country_name", Json.str "Russia")]]

/-- What `sampleBody` decodes to. -/
def sampleItems : List InputItem :=
  [{ zeroInputItem with code := "MOW", name := "Moscow", countryName := "Russia" }]

/-- An immediate successful upstream reply. -/
def sOK : Scenario :=
  { upstreamDelay := 0, upstreamReply := UpstreamReply.reply 200 sampleBody,
    timerFirst := false, goroutineWritesFirst := false }

/-- An immediate upstream 503. -/
def sErr : Scenario :=
  { upstreamDelay := 0, upstreamReply := UpstreamReply.reply 503 Json.null,
    timerFirst := false, goroutineWritesFirst := false }

/-- An upstream that replies successfully after 10 seconds — far beyond the
configured 3000 ms timeout, far below the computed context deadline. -/
def sLate : Scenario :=
  { upstreamDelay := 10000000000, upstreamReply := UpstreamReply.reply 200 sampleBody,
    timerFirst := true, goroutineWritesFirst := false }

/-- An upstream whose reply arrives exactly at the context deadline
(3000 * 10^12 ns for the default config), with the scheduler taking the
timer branch of the `select`. -/
def sTie : Scenario :=
  { upstreamDelay := 3000000000000000, upstreamReply := UpstreamReply.reply 200 sampleBody,
    timerFirst := true, goroutineWritesFirst := false }

/-- An upstream whose (successful) reply would arrive well after the context
deadline, so the deadline fires first and `client.Do` is cancelled. -/
def sCancelled : Scenario :=
  { upstreamDelay := 4000000000000000, upstreamReply := UpstreamReply.reply 200 sampleBody,
    timerFirst := true, goroutineWritesFirst := false }

/-- A cache holding a value that is not an `outputResp` under the key. -/
def otherCache : LRUCache := { size := 1000, entries := [("/u", CacheValue.other "raw")] }

/-- The cache stores only successfully transformed output collections. -/
def CacheOK (c : LRUCache) : Prop :=
  ∀ e ∈ c.entries, ∃ inp, e.2 = CacheValue.output (transform inp)

/-! ### Helper lemmas about the cache model -/

theorem mem_removeKey {e : String × CacheValue} {k : String}
    {l : List (String × CacheValue)} (h : e ∈ removeKey k l) : e ∈ l := by
  induction l with
  | nil => simp [removeKey] at h
  | cons a as ih =>
      by_cases ha : a.1 = k
      · rw [removeKey, if_pos ha] at h
        exact List.mem_cons_of_mem _ (ih h)
      · rw [removeKey, if_neg ha] at h
        rcases List.mem_cons.mp h with h1 | h2
        · exact h1 ▸ List.mem_cons_self _ _
        · exact List.mem_cons_of_mem _ (ih h2)

theorem lookupKey_mem {k : String} {l : List (String × CacheValue)} {v : CacheValue}
    (h : lookupKey k l = some v) : (k, v) ∈ l := by
  induction l with
  | nil => simp [lookupKey] at h
  | cons a as ih =>
      by_cases ha : a.1 = k
      · rw [lookupKey, if_pos ha] at h
        have hv : a = (k, v) := by
          cases a with
          | mk a1 a2 => simp at ha ⊢; exact ⟨ha, by simpa using h⟩
        exact hv ▸ List.mem_cons_self _ _
      · rw [lookupKey, if_neg ha] at h
        exact List.mem_cons_of_mem _ (ih h)

theorem removeKey_of_lookup_none {k : String} {l : List (String × CacheValue)}
    (h : lookupKey k l = none) : removeKey k l = l := by
  induction l with
  | nil => rfl
  | cons e es ih =>
      by_cases he : e.1 = k
      · simp [lookupKey, he] at h
      · simp [lookupKey, he] at h
        simp [removeKey, he, ih h]

theorem lruGet_entries_sub {c : LRUCache} {k : String} {e : String × CacheValue}
    (h : e ∈ (lruGet c k).2.entries) : e ∈ c.entries := by
  unfold lruGet at h
  cases hl : lookupKey k c.entries with
  | none => rw [hl] at h; exact h
  | some v =>
      rw [hl] at h
      rcases List.mem_cons.mp h with h1 | h2
      · exact h1 ▸ lookupKey_mem hl
      · exact mem_removeKey h2

theorem pull_cache_eq (c : LRUCache) (k : String) :
    (pullAndResponse c k).2.2 = (lruGet c k).2 := by
  unfold pullAndResponse
  rcases hg : lruGet c k with ⟨o, c2⟩
  cases o with
  | none => rfl
  | some v => cases v <;> rfl

theorem mem_lruAdd {c : LRUCache} {k : String} {v : CacheValue}
    {e : String × CacheValue} (h : e ∈ (lruAdd c k v).entries) :
    e = (k, v) ∨ e ∈ c.entries := by
  unfold lruAdd at h
  have h2 := List.take_subset _ _ h
  rcases List.mem_cons.mp h2 with h3 | h4
  · exact Or.inl h3
  · exact Or.inr (mem_removeKey h4)

theorem handler_push_shape {d : Int} {s : Scenario} {v : List OutputItem}
    (h : (handler d s).2 = some v) : ∃ inp, v = transform inp := by
  unfold handler at h
  cases hr : requestResult d s with
  | error u => rw [hr] at h; simp at h
  | ok input => rw [hr] at h; simp at h; exact ⟨input, h.symm⟩

theorem cacheOK_step {cfg : Config} {c : LRUCache} {s : Scenario} {url : String}
    (hc : CacheOK c) : CacheOK (handlerFunc cfg c s url).cache := by
  intro e he
  have hpull : CacheOK (pullAndResponse c url).2.2 := by
    intro e2 he2
    rw [pull_cache_eq] at he2
    exact hc e2 (lruGet_entries_sub he2)
  simp only [handlerFunc] at he
  split at he
  · exact hpull e he
  · cases heq : (handler (ctxTimeout cfg) s).2 with
    | none =>
        rw [heq] at he
        exact hpull e he
    | some v =>
        rw [heq] at he
        rcases mem_lruAdd he with h1 | h2
        · rcases handler_push_shape heq with ⟨inp, hv⟩
          exact ⟨inp, by rw [h1, hv]⟩
        · exact hpull e h2

theorem cacheOK_trace {cfg : Config} {c : LRUCache} {ts : List (Scenario × String)}
    (hc : CacheOK c) : CacheOK (execTrace cfg c ts) := by
  induction ts generalizing c with
  | nil => exact hc
  | cons t ts ih => exact ih (cacheOK_step hc)

/-! ### The claims -/

/-- C1: the claim says that on a cache miss exactly one response is written
and the losing path of the race never also writes to the connection.  The
code violates it: when the deadline branch of the `select` wins, the
abandoned `handler` goroutine still calls `w.Write` on the same connection
(its writes are unconditional), so the connection log carries the 504
response and a second error body.  Evaluated here at a request whose fetch
is cancelled at the deadline and whose `select` takes the timer branch. -/
theorem claim1_timeoutRaceDoubleWrite :
    (handlerFunc newConfig emptyCache sTie "/v2/places.json?term=Moscow").writes =
      [WriteEvent.header 504, WriteEvent.body internalErr, WriteEvent.body internalErr] := by
  decide

/-- C2: the claim says a request whose deadline elapses first gets the 504
and the fixed error body no later than the configured timeout plus slack.
The 504 path and body are as claimed, but the deadline itself is computed
as `time.Duration(s.reqTimeout) * time.Millisecond` where `s.reqTimeout`
already is `RequestTimeout` milliseconds, so the race only fires after
`RequestTimeout * 10^6` milliseconds.  An upstream stub delaying 10 seconds
(past the configured 3000 ms) is therefore not timed out at all: the client
gets the late success with status 200 and the 504 could come only after
3000 * 10^12 ns (about 34.7 days). -/
theorem claim2_gatewayTimeoutNotWithinConfiguredTimeout :
    reqTimeout newConfig = 3000 * millisecond ∧
    ctxTimeout newConfig = 1000000 * (3000 * millisecond) ∧
    (handlerFunc newConfig emptyCache sLate "/u").writes =
      [WriteEvent.body (marshalOutputResp (transform sampleItems))] ∧
    responseStatus (handlerFunc newConfig emptyCache sLate "/u").writes = 200 := by
  refine ⟨by decide, by decide, rfl, rfl⟩

/-- C3 (counterexample): the claim says a deadline-first request leaves the
fetch uncancelled so that its successful result still populates the cache,
and that its result is never written to the client connection.  At a
request whose upstream reply (a successful one) would arrive after the
deadline, the code cancels the fetch through the shared context
(`requestResult` is an error), leaves the cache empty, and the background
path writes an extra body to the already-responded connection. -/
theorem claim3_counterexample :
    requestResult (ctxTimeout newConfig) sCancelled = Except.error () ∧
    (handlerFunc newConfig emptyCache sCancelled "/u").cache.entries = [] ∧
    (handlerFunc newConfig emptyCache sCancelled "/u").writes ≠
      [WriteEvent.header 504, WriteEvent.body internalErr] := by
  refine ⟨rfl, rfl, by decide⟩

/-- C3 (amended): when the deadline fires first on a cache miss, the
in-flight fetch is cancelled by the shared deadline context and returns an
error, the cache is not populated by that request, and the background path
writes the internal-error body to the already-responded connection in a
scheduler-chosen order. -/
theorem claim3_amended (cfg : Config) (c : LRUCache) (s : Scenario) (url : String)
    (hmiss : lookupKey url c.entries = none)
    (hlate : ctxTimeout cfg ≤ s.upstreamDelay)
    (htimer : s.timerFirst = true) :
    requestResult (ctxTimeout cfg) s = Except.error () ∧
    (handlerFunc cfg c s url).cache = c ∧
    (handlerFunc cfg c s url).writes =
      (if s.goroutineWritesFirst then
        [WriteEvent.body internalErr, WriteEvent.header 504, WriteEvent.body internalErr]
      else
        [WriteEvent.header 504, WriteEvent.body internalErr, WriteEvent.body internalErr]) := by
  have hreq : requestResult (ctxTimeout cfg) s = Except.error () := by
    simp [requestResult, hlate]
  refine ⟨hreq, ?_, ?_⟩ <;>
    simp [handlerFunc, pullAndResponse, lruGet, hmiss, handler, hreq, hlate, htimer, internalErr]

/-- C3 (witness): `claim3_amended` applied at the default configuration, an
empty cache and the cancelled-late-success scenario. -/
theorem claim3_amended_witness :
    lookupKey "/u" emptyCache.entries = none ∧
    ctxTimeout newConfig ≤ sCancelled.upstreamDelay ∧
    sCancelled.timerFirst = true ∧
    (requestResult (ctxTimeout newConfig) sCancelled = Except.error () ∧
     (handlerFunc newConfig emptyCache sCancelled "/u").cache = emptyCache ∧
     (handlerFunc newConfig emptyCache sCancelled "/u").writes =
       (if sCancelled.goroutineWritesFirst then
         [WriteEvent.body internalErr, WriteEvent.header 504, WriteEvent.body internalErr]
       else
         [WriteEvent.header 504, WriteEvent.body internalErr, WriteEvent.body internalErr])) :=
  ⟨rfl, by decide, rfl,
    claim3_amended newConfig emptyCache sCancelled "/u" rfl (by decide) rfl⟩

/-- C4: the claim says a fetch/transform failure before the deadline yields
HTTP 500 with the error body.  In this variant `handler` writes
`internalErr` without any `WriteHeader`, so the status the client sees is
Go's implicit 200, not 500 (the body, the empty cache and the absence of a
retry are as claimed).  Evaluated at an immediate upstream 503. -/
theorem claim4_fetchFailureStatus200 :
    (handlerFunc newConfig emptyCache sErr "/u").writes = [WriteEvent.body internalErr] ∧
    responseStatus (handlerFunc newConfig emptyCache sErr "/u").writes = 200 ∧
    (handlerFunc newConfig emptyCache sErr "/u").cache.entries = [] ∧
    (handlerFunc newConfig emptyCache sErr "/u").fetchCalls = 1 := by
  decide

/-- C5: the claim says the race deadline (also governing the upstream call
through the shared context) equals `RequestTimeout` milliseconds.  The code
multiplies by `time.Millisecond` twice — `s.reqTimeout` is already
`RequestTimeout * time.Millisecond` and `handlerFunc` computes
`time.Duration(s.reqTimeout) * time.Millisecond` — so for the default
3000 the deadline is 3000 * 10^12 ns, a million times the claimed
3000 * 10^6 ns. -/
theorem claim5_deadlineScaledTwice :
    reqTimeout newConfig = 3000 * millisecond ∧
    ctxTimeout newConfig = 1000000 * (3000 * millisecond) ∧
    ctxTimeout newConfig ≠ 3000 * millisecond := by
  decide

/-- C6: `transform` is 1:1 and order-preserving: the output has the length
of the input and item `k` is derived from input item `k` by
`slug = code`, `subtitle = country_name`, `title = name`; nothing is
filtered (empty string fields pass through like any other value). -/
theorem claim6_transformLengthAndDerivation (I : List InputItem) :
    (transform I).length = I.length ∧
    ∀ k : Nat, (transform I)[k]? = (I[k]?).map (fun it : InputItem => ({ slug := it.code, subtitle := it.countryName, title := it.name } : OutputItem)) := by
  refine ⟨by simp [transform], fun k => ?_⟩
  simp [transform]

/-- C7: starting from a fresh cache of any capacity, after any sequence of
requests every value stored in the cache is `CacheValue.output` of a
transformed input collection — never a raw input, an error, or a partial
result.  The only write path is `push` in `handler`, reached after the
fetch and transform succeeded. -/
theorem claim7_cacheOnlyTransformedCollections (cfg : Config) (n : Nat)
    (ts : List (Scenario × String)) (e : String × CacheValue)
    (he : e ∈ (execTrace cfg { size := n, entries := [] } ts).entries) :
    ∃ inp, e.2 = CacheValue.output (transform inp) :=
  cacheOK_trace (fun e2 h2 => by simp at h2) e he

/-- C7 (witness): `claim7_cacheOnlyTransformedCollections` at a one-request
trace that stores the sample collection. -/
theorem claim7_witness :
    ("/u", CacheValue.output (transform sampleItems)) ∈
      (execTrace newConfig { size := 5, entries := [] } [(sOK, "/u")]).entries ∧
    ∃ inp, (("/u", CacheValue.output (transform sampleItems)) : String × CacheValue).2 =
      CacheValue.output (transform inp) :=
  ⟨by decide,
    claim7_cacheOnlyTransformedCollections newConfig 5 [(sOK, "/u")] _ (by decide)⟩

/-- C8: after a cache-miss request for a key whose fetch succeeds (which
stores the transformed collection), a second request for the same key hits
the cache: it launches no fetch goroutine and answers with exactly the
marshalled stored collection, whatever the second request's environment. -/
theorem claim8_cacheHitSameValueNoUpstream (cfg : Config) (c0 : LRUCache)
    (s1 s2 : Scenario) (url : String) (items : List InputItem)
    (hsize : 1 ≤ c0.size)
    (hmiss : lookupKey url c0.entries = none)
    (hok : requestResult (ctxTimeout cfg) s1 = Except.ok items) :
    (handlerFunc cfg c0 s1 url).fetchCalls = 1 ∧
    (handlerFunc cfg (handlerFunc cfg c0 s1 url).cache s2 url).fetchCalls = 0 ∧
    (handlerFunc cfg (handlerFunc cfg c0 s1 url).cache s2 url).writes =
      [WriteEvent.body (marshalOutputResp (transform items))] := by
  have hnl : ¬ (ctxTimeout cfg ≤ s1.upstreamDelay) := by
    intro hle
    simp [requestResult, hle] at hok
  have hc1 : (handlerFunc cfg c0 s1 url).cache =
      { size := c0.size,
        entries := ((url, CacheValue.output (transform items)) :: c0.entries).take c0.size } := by
    simp [handlerFunc, pullAndResponse, lruGet, hmiss, handler, hok, hnl, lruAdd,
      removeKey_of_lookup_none hmiss]
  obtain ⟨m, hm⟩ : ∃ m, c0.size = m + 1 := ⟨c0.size - 1, by omega⟩
  refine ⟨?_, ?_, ?_⟩
  · simp [handlerFunc, pullAndResponse, lruGet, hmiss]
  · rw [hc1, hm]
    simp [handlerFunc, pullAndResponse, lruGet, lookupKey, List.take_succ_cons]
  · rw [hc1, hm]
    simp [handlerFunc, pullAndResponse, lruGet, lookupKey, List.take_succ_cons]

/-- C8 (witness): `claim8_cacheHitSameValueNoUpstream` with the sample
fetch as the first request and an (irrelevant) failing environment for the
second. -/
theorem claim8_witness :
    1 ≤ emptyCache.size ∧
    lookupKey "/u" emptyCache.entries = none ∧
    requestResult (ctxTimeout newConfig) sOK = Except.ok sampleItems ∧
    ((handlerFunc newConfig emptyCache sOK "/u").fetchCalls = 1 ∧
     (handlerFunc newConfig (handlerFunc newConfig emptyCache sOK "/u").cache sErr "/u").fetchCalls = 0 ∧
     (handlerFunc newConfig (handlerFunc newConfig emptyCache sOK "/u").cache sErr "/u").writes =
       [WriteEvent.body (marshalOutputResp (transform sampleItems))]) :=
  ⟨by decide, rfl, rfl,
    claim8_cacheHitSameValueNoUpstream newConfig emptyCache sOK sErr "/u" sampleItems
      (by decide) rfl rfl⟩

/-- C9 (counterexample): the claim says unknown/extra fields never cause a
decode failure.  `json.Unmarshal` matches object keys to fields accepting a
case-insensitive match, so the key `"CODE"` — not among the declared tags —
hits the `Code string` field, and with the numeric value `5` the decode of
the item, and of an array body containing it, fails with an
`UnmarshalTypeError`. -/
theorem claim9_counterexample :
    "CODE" ∉ knownKeys ∧
    decodeInputItem [("CODE", Json.num 5)] = Except.error () ∧
    decodeInputResp (Json.arr [Json.obj [("CODE", Json.num 5)]]) = Except.error () := by
  refine ⟨by decide, rfl, rfl⟩

/-- C9 (amended): decoding tolerates foreign input in the following sense:
a key that does not case-insensitively (fold-) match any declared tag is
ignored and never changes — in particular never fails — the decode of an
item; an item with every field absent decodes to the zero item; the three
fields the source declares with unknown type accept any JSON shape; a key
that case-insensitively matches a declared tag is decoded into that field
(so a well-typed case-variant succeeds, while a mistyped one fails, as the
counterexample shows); and the core consumes only `code`, `name` and
`country_name` — the transform of an item is built from exactly those
three fields. -/
theorem claim9_amended :
    (∀ fs k v, foldName k ∉ knownKeys → decodeInputItem ((k, v) :: fs) = decodeInputItem fs) ∧
    decodeInputElem (Json.obj []) = Except.ok zeroInputItem ∧
    (∀ v1 v2 v3, decodeInputItem [("state_code", v1), ("country_cases", v2), ("main_airport_name", v3)] = Except.ok { zeroInputItem with stateCode := v1, countryCases := v2, mainAirportName := v3 }) ∧
    (∀ x, decodeInputItem [("CODE", Json.str x)] = Except.ok { zeroInputItem with code := x }) ∧
    (∀ it : InputItem, transform [it] = [{ slug := it.code, subtitle := it.countryName, title := it.name }]) := by
  refine ⟨?_, rfl, fun v1 v2 v3 => rfl, fun x => rfl, fun it => rfl⟩
  intro fs k v hk
  simp [knownKeys, List.mem_cons] at hk
  obtain ⟨h1, h2, h3, h4, h5, h6, h7, h8, h9, h10, h11, h12⟩ := hk
  have hset : setField zeroInputItem k v = Except.ok zeroInputItem := by
    unfold setField
    rw [if_neg h1, if_neg h2, if_neg h3, if_neg h4, if_neg h5, if_neg h6, if_neg h7,
      if_neg h8, if_neg h9, if_neg h10, if_neg h11, if_neg h12]
  calc decodeInputItem ((k, v) :: fs)
      = setField zeroInputItem k v >>= fun it => List.foldlM (fun it p => setField it p.1 p.2) it fs := rfl
    _ = Except.ok zeroInputItem >>= fun it => List.foldlM (fun it p => setField it p.1 p.2) it fs := by rw [hset]
    _ = decodeInputItem fs := rfl

/-- C9 (witness): `claim9_amended` discharged at a key matching no tag even
after folding. -/
theorem claim9_amended_witness :
    foldName "zzz" ∉ knownKeys ∧
    decodeInputItem [("zzz", Json.bool true)] = decodeInputItem [] :=
  ⟨by decide, claim9_amended.1 [] "zzz" (Json.bool true) (by decide)⟩

/-- C10: when the cached value under a key is not an `outputResp`, the type
assertion in `pullAndResponse` fails and the request is handled exactly
like a cache miss: one fetch goroutine is launched and the connection sees
the same writes a fresh-cache request would see (no panic, no error
response from the lookup itself). -/
theorem claim10_nonOutputCacheValueIsMiss (cfg : Config) (c0 : LRUCache)
    (s : Scenario) (url tag : String)
    (hother : lookupKey url c0.entries = some (CacheValue.other tag)) :
    (handlerFunc cfg c0 s url).fetchCalls = 1 ∧
    (handlerFunc cfg c0 s url).writes =
      (handlerFunc cfg { size := c0.size, entries := [] } s url).writes := by
  constructor
  · simp [handlerFunc, pullAndResponse, lruGet, hother]
  · simp [handlerFunc, pullAndResponse, lruGet, hother, lookupKey]

/-- C10 (witness): `claim10_nonOutputCacheValueIsMiss` at a cache holding a
non-`outputResp` value under the requested key. -/
theorem claim10_witness :
    lookupKey "/u" otherCache.entries = some (CacheValue.other "raw") ∧
    ((handlerFunc newConfig otherCache sErr "/u").fetchCalls = 1 ∧
     (handlerFunc newConfig otherCache sErr "/u").writes =
       (handlerFunc newConfig { size := otherCache.size, entries := [] } sErr "/u").writes) :=
  ⟨rfl, claim10_nonOutputCacheValueIsMiss newConfig otherCache sErr "/u" "raw" rfl⟩

end Adviser
